import Mathlib

/-!
Shallow embedding of the rig-cc terminal assistant core (src/src/main.rs and
src/src/tools.rs): the bash command runner (output composition, advisory
timeout, byte-capped truncation), the write-file tool, the turn loop
(event-stream consumption, history appending, usage counters), and the
thousands-separator number formatter. Rust strings are modelled as Lean
strings together with their UTF-8 byte sequences (List Nat); machine
integers that never overflow in the modelled code are Nat/Int.
-/

namespace RigCC

/-! ## UTF-8 bytes of a string

Rust `String` is a UTF-8 byte sequence; `String::len`, `String::truncate`
and `str::is_char_boundary` speak about bytes.  We model the byte view of a
Lean string by encoding each scalar value per the UTF-8 definition. -/

/-- UTF-8 encoding of a single scalar value, as the list of its bytes. -/
def utf8EncodeChar (c : Char) : List Nat :=
  let n := c.toNat
  if n < 0x80 then [n]
  else if n < 0x800 then [0xC0 + n / 0x40, 0x80 + n % 0x40]
  else if n < 0x10000 then
    [0xE0 + n / 0x1000, 0x80 + (n / 0x40) % 0x40, 0x80 + n % 0x40]
  else
    [0xF0 + n / 0x40000, 0x80 + (n / 0x1000) % 0x40,
     0x80 + (n / 0x40) % 0x40, 0x80 + n % 0x40]

/-- UTF-8 bytes of a character list. -/
def bytesOfChars : List Char → List Nat
  | [] => []
  | c :: cs => utf8EncodeChar c ++ bytesOfChars cs

/-- UTF-8 bytes of a string: this is what Rust stores, and what
`String::len` counts. -/
def strBytes (s : String) : List Nat := bytesOfChars s.data

/-- A UTF-8 continuation byte (of the form 10xxxxxx). -/
def isContinuation (b : Nat) : Bool := 0x80 ≤ b && b < 0xC0

/-- Model of `str::is_char_boundary`: index 0 and the end of the string are
boundaries; an interior index is a boundary when the byte there does not
continue a multi-byte sequence.  (Rust returns false past the end; that case
is unreachable where we use it.) -/
def isCharBoundary (s : List Nat) (i : Nat) : Bool :=
  i == 0 || s.length ≤ i || !isContinuation (s.getD i 0)

/-- Model of `String::truncate s n`: a no-op when `n` is at least the
length; otherwise it keeps the first `n` bytes but PANICS (modelled as
`none`) when `n` is not a character boundary. -/
def rustTruncate (s : List Nat) (n : Nat) : Option (List Nat) :=
  if s.length ≤ n then some s
  else if isCharBoundary s n then some (s.take n) else none

/-! ## Command runner (`Bash::call` in main.rs, `Bash::run` in tools.rs) -/

/-- `const MAX_OUTPUT_BYTES: usize = 50 * 1024;` -/
def MAX_OUTPUT_BYTES : Nat := 50 * 1024

/-- `const WARNING_TIMEOUT_SECS: u64 = 60;` -/
def WARNING_TIMEOUT_SECS : Nat := 60

/-- Model of `ExitStatus::success()`: true exactly when the process exited
normally with code 0 (`status.code()` is modelled as `Option Int`, `none`
when the code cannot be determined, e.g. killed by a signal). -/
def statusSuccess (status : Option Int) : Bool := status == some 0

/-- Composition of the tool result string from the exit status and the
lossily-decoded stdout/stderr contents, mirroring the
`let mut output = if status.success() ... else ...` block. -/
def composeOutput (status : Option Int) (stdout_content stderr_content : String) : String :=
  if statusSuccess status then
    if stderr_content.isEmpty then stdout_content
    else if stdout_content.isEmpty then
      stdout_content ++ "stderr:\n" ++ stderr_content
    else
      stdout_content ++ "\n" ++ "stderr:\n" ++ stderr_content
  else
    let base := "Exit code: " ++ toString (status.getD (-1)) ++ "\n"
    let out1 := if stdout_content.isEmpty then base
      else base ++ "stdout:\n" ++ stdout_content ++ "\n"
    if stderr_content.isEmpty then out1 else out1 ++ "stderr:\n" ++ stderr_content

/-- The marker appended after truncation:
`format!("\n... [output truncated, {} bytes total]", total_bytes)`. -/
def truncationMarker (total : Nat) : String :=
  "\n... [output truncated, " ++ toString total ++ " bytes total]"

/-- The size-capping step at the end of the runner, at the byte level:
when the composed output exceeds `MAX_OUTPUT_BYTES` it is cut by
`String::truncate` (which panics — `none` — off a character boundary; the
subsequent boundary-popping `while` loop is unreachable because a
successful `truncate` already ends on a boundary) and the marker is
appended. -/
def bashPostprocess (output : String) : Option (List Nat) :=
  let bytes := strBytes output
  let total := bytes.length
  if MAX_OUTPUT_BYTES < total then
    (rustTruncate bytes MAX_OUTPUT_BYTES).map
      (fun t => t ++ strBytes (truncationMarker total))
  else some bytes

/-- Compose-then-cap: the full pure data path of the runner after the
process has been waited on and its pipes drained. -/
def bashResult (status : Option Int) (stdout_content stderr_content : String) :
    Option (List Nat) :=
  bashPostprocess (composeOutput status stdout_content stderr_content)

/-- The one-time warning emitted to stderr when the advisory timeout
elapses. -/
def timeoutWarning : String :=
  "\n[Command running for >" ++ toString WARNING_TIMEOUT_SECS ++
    "s. Press Ctrl+C to interrupt]"

/-- Environment of one runner invocation: whether spawning failed, whether
the 60 s advisory timeout elapsed before the process finished, whether the
(possibly second) wait failed, and otherwise the exit status and the
lossily-decoded drained pipe contents. -/
structure CmdEnv where
  spawnErr : Option String
  timedOut : Bool
  waitErr : Option String
  status : Option Int
  stdoutContent : String
  stderrContent : String
deriving DecidableEq

/-- Model of the whole `Bash::call` control flow.  The first component is
the list of warnings printed to the operator error stream; the second is
`none` when the truncation step panics, otherwise the tool-level
`Result`: `Except.error` on spawn/wait faults, `Except.ok` with the
composed (possibly truncated) bytes otherwise. -/
def bashCall (env : CmdEnv) : List String × Option (Except String (List Nat)) :=
  match env.spawnErr with
  | some e => ([], some (Except.error ("Failed to spawn command: " ++ e)))
  | none =>
    let warnings := if env.timedOut then [timeoutWarning] else []
    match env.waitErr with
    | some e => (warnings, some (Except.error ("Command failed: " ++ e)))
    | none =>
      (warnings, (bashResult env.status env.stdoutContent env.stderrContent).map Except.ok)

/-! ## Write-file tool (`WriteFile::call`)

The filesystem itself is external to the repository (`std::fs`); it is
modelled as explicit state: a list of existing directories and an
association of file paths to byte contents.  Paths are modelled as their
component lists (last component = file name); `Path::parent` of such a path
is its `dropLast`, which is empty exactly when Rust's parent is absent or
empty. -/

/-- Filesystem state: existing directories and file contents, each keyed by
a component path. -/
structure FS where
  dirs : List (List String)
  files : List (List String × List Nat)
deriving DecidableEq

/-- All ancestor directories of a parent path, shortest first (the
directories `create_dir_all` guarantees to exist afterwards). -/
def ancestorDirs (parent : List String) : List (List String) :=
  (List.range parent.length).map (fun i => parent.take (i + 1))

/-- Model of `std::fs::create_dir_all parent`: every missing ancestor of
`parent` is created; already-existing directories are untouched and not an
error. -/
def create_dir_all (dirs : List (List String)) (parent : List String) :
    List (List String) :=
  dirs ++ (ancestorDirs parent).filter (fun d => !dirs.contains d)

/-- Model of `std::fs::write`: the content at `path` is fully replaced (no
append, no merge). -/
def fsWrite (files : List (List String × List Nat)) (path : List String)
    (content : List Nat) : List (List String × List Nat) :=
  (path, content) :: files.filter (fun e => e.1 != path)

/-- Content of the file at `path`, when present. -/
def fsLookup (files : List (List String × List Nat)) (path : List String) :
    Option (List Nat) :=
  (files.find? (fun e => e.1 == path)).map (fun e => e.2)

/-- Rendering of a component path back to the string embedded in the
confirmation message. -/
def joinPath (p : List String) : String := String.intercalate "/" p

/-- Model of `WriteFile::call`: create the parent directory chain when the
parent component is non-empty, replace the file content, and return the
confirmation string with the byte count (`args.content.len()`) and the
path. -/
def writeFileCall (fs : FS) (path : List String) (content : List Nat) :
    FS × String :=
  let fs1 : FS :=
    if path.dropLast.isEmpty then fs
    else { dirs := create_dir_all fs.dirs path.dropLast, files := fs.files }
  ({ dirs := fs1.dirs, files := fsWrite fs1.files path content },
   "Successfully wrote " ++ toString content.length ++ " bytes to '"
     ++ joinPath path ++ "'")

/-! ## Number formatting (`format_number` in main.rs) -/

/-- The body of `for (i, c) in s.chars().rev().enumerate()`: walking the
reversed digit string, a comma is pushed before every character whose index
is a positive multiple of 3. -/
def formatRevAux : Nat → List Char → List Char
  | _, [] => []
  | i, c :: rest =>
    (if 0 < i ∧ i % 3 = 0 then [','] else []) ++ c :: formatRevAux (i + 1) rest

/-- Model of `format_number`: build the comma-ed string over the reversed
decimal representation, then reverse back. -/
def format_number (n : Nat) : String :=
  String.mk ((formatRevAux 0 (toString n).data.reverse).reverse)

/-! ## Turn loop (`main` in main.rs) -/

/-- A history-store entry (`rig::message::Message` as used here). -/
inductive Msg where
  | user (s : String)
  | assistant (s : String)
deriving DecidableEq

/-- The events the turn loop consumes from the engine stream, as matched in
the `while let Some(chunk) = stream.next()` loop. -/
inductive StreamEvent where
  | text (s : String)
  | toolCall (name : String)
  | toolResult (id : String)
  | final (inTok outTok : Nat)
  | error (msg : String)
deriving DecidableEq

/-- Per-turn mutable state of the loop body: the accumulated response text
and the two usage counters, all freshly initialised each turn
(`let mut response_text = String::new(); let mut input_tokens = 0u64; ...`). -/
structure TurnResult where
  responseText : String
  input_tokens : Nat
  output_tokens : Nat
deriving DecidableEq

/-- The event-consumption loop: text fragments accumulate, the final-usage
event overwrites the counters, a transport error stops consumption
immediately (`break`), tool-call/tool-result events only log and change no
state. -/
def consumeEvents : List StreamEvent → TurnResult → TurnResult
  | [], acc => acc
  | e :: rest, acc =>
    match e with
    | .text s => consumeEvents rest
        { acc with responseText := acc.responseText ++ s }
    | .final i o => consumeEvents rest
        { acc with input_tokens := i, output_tokens := o }
    | .error _ => acc
    | .toolCall _ => consumeEvents rest acc
    | .toolResult _ => consumeEvents rest acc

/-- One turn's stream consumption starting from the fresh per-turn state. -/
def processTurn (events : List StreamEvent) : TurnResult :=
  consumeEvents events { responseText := "", input_tokens := 0, output_tokens := 0 }

/-- History update at the end of a turn: the user message is always pushed;
the assistant message is pushed exactly when the accumulated response text
is non-empty. -/
def turnHistoryAppend (history : List Msg) (input : String)
    (events : List StreamEvent) : List Msg :=
  let r := processTurn events
  let h := history ++ [Msg.user input]
  if r.responseText.isEmpty then h else h ++ [Msg.assistant r.responseText]

/-- The usage line printed after each turn:
`println!("[Tokens: {} in / {} out]", format_number(..), format_number(..))`. -/
def usageLine (i o : Nat) : String :=
  "[Tokens: " ++ format_number i ++ " in / " ++ format_number o ++ " out]"

/-! ## Input handling -/

/-- ASCII whitespace as it reaches the trimming of a terminal line. -/
def isWs (c : Char) : Bool := c = ' ' || c = '\t' || c = '\n' || c = '\r'

/-- Model of `str::trim`: whitespace stripped from both ends. -/
def rustTrim (s : String) : String :=
  String.mk (((s.data.dropWhile isWs).reverse.dropWhile isWs).reverse)

/-- ASCII lowercasing of one character, as `eq_ignore_ascii_case` performs
on each byte. -/
def asciiLower (c : Char) : Char :=
  if 'A' ≤ c ∧ c ≤ 'Z' then Char.ofNat (c.toNat + 32) else c

/-- Model of `str::eq_ignore_ascii_case`. -/
def eqIgnoreAsciiCase (a b : String) : Bool :=
  a.data.map asciiLower == b.data.map asciiLower

/-- One read of the operator input: end-of-input (`Ok(0)`), a line
(`Ok(_)`) or a read error (`Err(_)`). -/
inductive InputEvent where
  | eof
  | line (s : String)
  | readErr (e : String)
deriving DecidableEq

/-- Outcome of one iteration of the main loop: clean termination with an
exit code and the final history, or continuation with the new history and
whether the conversation engine was invoked. -/
inductive StepOutcome where
  | terminated (exitCode : Nat) (history : List Msg)
  | next (history : List Msg) (invokedEngine : Bool)
deriving DecidableEq

/-- One iteration of the `loop` in `main`: EOF and a trimmed
case-insensitive `exit`/`quit` break out (the program then returns `Ok(())`,
exit code 0); a blank line `continue`s; a read error is logged and the loop
continues; otherwise the engine is invoked on the trimmed input and the
history updated. -/
def loopStep (history : List Msg) (ev : InputEvent)
    (engine : String → List StreamEvent) : StepOutcome :=
  match ev with
  | .eof => .terminated 0 history
  | .readErr _ => .next history false
  | .line s =>
    let t := rustTrim s
    if eqIgnoreAsciiCase t "exit" || eqIgnoreAsciiCase t "quit" then
      .terminated 0 history
    else if t.isEmpty then .next history false
    else .next (turnHistoryAppend history t (engine t)) true

/-! ## Spec-side definitions (for refinement comparisons)

These follow the wording of the specification, to be compared with the
definitions translated from the source above. -/

/-- Spec wording of the failure-branch composition: an `Exit code: n` line,
then a `stdout:`-labeled block iff stdout is non-empty, then a
`stderr:`-labeled block iff stderr is non-empty. -/
def specFailureOutput (code : Int) (stdout_content stderr_content : String) : String :=
  "Exit code: " ++ toString code ++ "\n"
    ++ (if stdout_content = "" then "" else "stdout:\n" ++ stdout_content ++ "\n")
    ++ (if stderr_content = "" then "" else "stderr:\n" ++ stderr_content)

/-- Groups of at most three characters, taken from the front of an
(already reversed, least-significant-first) digit list. -/
def chunk3 : List Char → List (List Char)
  | [] => []
  | [a] => [[a]]
  | [a, b] => [[a, b]]
  | a :: b :: c :: rest => [a, b, c] :: chunk3 rest

/-- Comma-joining of digit groups: a comma between every two adjacent
groups. -/
def joinComma : List (List Char) → List Char
  | [] => []
  | [g] => g
  | g :: gs => g ++ ',' :: joinComma gs

/-- Spec wording of the digit grouping: groups of three digits counting
from the least significant digit, in most-significant-first order. -/
def digitGroups (digits : List Char) : List (List Char) :=
  ((chunk3 digits.reverse).map List.reverse).reverse

/-- Spec wording of the formatter: the decimal representation with a comma
between every group of three digits counting from the least significant
digit. -/
def specFormatNumber (n : Nat) : String :=
  String.mk (joinComma (digitGroups (toString n).data))

/-- Concatenation of a list of streamed text fragments, in order. -/
def concatTexts (ts : List String) : String := ts.foldr (· ++ ·) ""

/-- The oversized composed output whose 51200th byte falls inside a
multi-byte character: 51199 ASCII bytes followed by a two-byte character. -/
def badOutput : String := String.mk (List.replicate 51199 'a' ++ ['é'])

/-! ## Helper lemmas -/

theorem bytesOfChars_append : ∀ (l1 l2 : List Char),
    bytesOfChars (l1 ++ l2) = bytesOfChars l1 ++ bytesOfChars l2
  | [], _ => rfl
  | c :: cs, l2 => by
    simp [bytesOfChars, bytesOfChars_append cs l2, List.append_assoc]

theorem bytesOfChars_replicate_a (n : Nat) :
    bytesOfChars (List.replicate n 'a') = List.replicate n 97 := by
  induction n with
  | zero => rfl
  | succ k ih =>
    simp [List.replicate_succ, bytesOfChars, ih,
      show utf8EncodeChar 'a' = [97] from by decide]

theorem strBytes_badOutput :
    strBytes badOutput = List.replicate 51199 97 ++ [195, 169] := by
  show bytesOfChars (List.replicate 51199 'a' ++ ['é']) = _
  rw [bytesOfChars_append, bytesOfChars_replicate_a,
    show bytesOfChars ['é'] = [195, 169] from by decide]

theorem strBytes_badOutput_length : (strBytes badOutput).length = 51201 := by
  rw [strBytes_badOutput, List.length_append, List.length_replicate]
  rfl

theorem getD_replicate_append (a : Nat) (l : List Nat) (d : Nat) :
    ∀ (n i : Nat), (List.replicate n a ++ l).getD (n + i) d = l.getD i d
  | 0, i => by simp
  | n + 1, i => by
    rw [List.replicate_succ, List.cons_append,
      show n + 1 + i = (n + i) + 1 from by omega, List.getD_cons_succ]
    exact getD_replicate_append a l d n i

theorem badOutput_getD : (strBytes badOutput).getD 51200 0 = 169 := by
  rw [strBytes_badOutput, show (51200 : Nat) = 51199 + 1 from by norm_num,
    getD_replicate_append]
  rfl

theorem badOutput_not_boundary :
    isCharBoundary (strBytes badOutput) 51200 = false := by
  unfold isCharBoundary
  rw [badOutput_getD, strBytes_badOutput_length]
  decide

theorem bashPostprocess_badOutput : bashPostprocess badOutput = none := by
  simp only [bashPostprocess, rustTruncate,
    show (MAX_OUTPUT_BYTES : Nat) = 51200 from rfl,
    strBytes_badOutput_length, badOutput_not_boundary]
  norm_num

theorem formatRevAux_congr : ∀ (l : List Char) (i j : Nat), 1 ≤ i → 1 ≤ j →
    i % 3 = j % 3 → formatRevAux i l = formatRevAux j l
  | [], _, _, _, _, _ => rfl
  | c :: rest, i, j, hi, hj, hmod => by
    unfold formatRevAux
    have hcond : (0 < i ∧ i % 3 = 0) ↔ (0 < j ∧ j % 3 = 0) := by omega
    rw [formatRevAux_congr rest (i + 1) (j + 1) (by omega) (by omega) (by omega)]
    by_cases hc : 0 < i ∧ i % 3 = 0
    · rw [if_pos hc, if_pos (hcond.mp hc)]
    · rw [if_neg hc, if_neg (fun h => hc (hcond.mpr h))]

theorem joinComma_cons_ne (g : List Char) (L : List (List Char)) (h : L ≠ []) :
    joinComma (g :: L) = g ++ ',' :: joinComma L := by
  cases L with
  | nil => exact absurd rfl h
  | cons z zs => rfl

theorem chunk3_cons_ne_nil (x : Char) (xs : List Char) : chunk3 (x :: xs) ≠ [] := by
  cases xs with
  | nil => simp [chunk3]
  | cons b bs =>
    cases bs with
    | nil => simp [chunk3]
    | cons c cs => simp [chunk3]

theorem formatRevAux_zero : ∀ l : List Char, formatRevAux 0 l = joinComma (chunk3 l)
  | [] => rfl
  | [a] => by norm_num [formatRevAux, chunk3, joinComma]
  | [a, b] => by norm_num [formatRevAux, chunk3, joinComma]
  | [a, b, c] => by norm_num [formatRevAux, chunk3, joinComma]
  | a :: b :: c :: d :: rest => by
    have ih := formatRevAux_zero (d :: rest)
    have h4 : formatRevAux 4 rest = formatRevAux 1 rest :=
      formatRevAux_congr rest 4 1 (by omega) (by omega) (by omega)
    rw [chunk3, joinComma_cons_ne _ _ (chunk3_cons_ne_nil d rest), ← ih]
    norm_num [formatRevAux, h4]

theorem joinComma_append_single : ∀ (H : List (List Char)) (x : List Char),
    H ≠ [] → joinComma (H ++ [x]) = joinComma H ++ ',' :: x
  | [], _, h => absurd rfl h
  | [y], x, _ => by simp [joinComma]
  | y :: z :: H, x, _ => by
    have ih := joinComma_append_single (z :: H) x (by simp)
    rw [show (y :: z :: H) ++ [x] = y :: ((z :: H) ++ [x]) from rfl,
        joinComma_cons_ne y ((z :: H) ++ [x]) (by simp), ih,
        joinComma_cons_ne y (z :: H) (by simp)]
    simp [List.append_assoc]

theorem joinComma_reverse : ∀ G : List (List Char),
    (joinComma G).reverse = joinComma ((G.map List.reverse).reverse)
  | [] => rfl
  | [g] => by simp [joinComma]
  | g :: z :: G => by
    have ih := joinComma_reverse (z :: G)
    rw [joinComma_cons_ne g (z :: G) (by simp)]
    have hne : (((z :: G).map List.reverse).reverse : List (List Char)) ≠ [] := by simp
    rw [List.map_cons, List.reverse_cons, joinComma_append_single _ _ hne, ← ih]
    simp [List.reverse_append, List.append_assoc]

theorem string_empty_append (s : String) : "" ++ s = s := by
  apply String.ext
  simp [String.data_append]

theorem consumeEvents_texts : ∀ (ts : List String) (rest : List StreamEvent)
    (acc : TurnResult),
    consumeEvents (ts.map StreamEvent.text ++ rest) acc =
      consumeEvents rest { acc with responseText := acc.responseText ++ concatTexts ts }
  | [], rest, acc => by
    simp [concatTexts]
  | t :: ts, rest, acc => by
    rw [List.map_cons, List.cons_append]
    show consumeEvents (ts.map StreamEvent.text ++ rest)
      { acc with responseText := acc.responseText ++ t } = _
    rw [consumeEvents_texts ts rest]
    congr 1
    simp [concatTexts, String.append_assoc]

theorem consumeEvents_no_final : ∀ (events : List StreamEvent) (acc : TurnResult),
    (∀ a b, StreamEvent.final a b ∉ events) →
    (consumeEvents events acc).input_tokens = acc.input_tokens ∧
      (consumeEvents events acc).output_tokens = acc.output_tokens
  | [], acc, _ => ⟨rfl, rfl⟩
  | e :: rest, acc, h => by
    have hrest : ∀ a b, StreamEvent.final a b ∉ rest := by
      intro a b hm
      exact h a b (List.mem_cons_of_mem e hm)
    cases e with
    | text s => exact consumeEvents_no_final rest _ hrest
    | toolCall n => exact consumeEvents_no_final rest _ hrest
    | toolResult i => exact consumeEvents_no_final rest _ hrest
    | error m => exact ⟨rfl, rfl⟩
    | final a b => exact absurd (List.mem_cons_self _ _) (h a b)

theorem fsLookup_fsWrite_self (files : List (List String × List Nat))
    (path : List String) (content : List Nat) :
    fsLookup (fsWrite files path content) path = some content := by
  simp [fsLookup, fsWrite, List.find?_cons_of_pos]

theorem filter_ne_then_eq (l : List (List String × List Nat)) (p : List String) :
    (l.filter (fun e => e.1 != p)).filter (fun e => e.1 == p) = [] := by
  induction l with
  | nil => rfl
  | cons a t ih =>
    by_cases h : a.1 = p
    · simp [List.filter_cons, h, ih]
    · simp [List.filter_cons, h, ih]

theorem fsWrite_filter_key (files : List (List String × List Nat))
    (path : List String) (content : List Nat) :
    ((fsWrite files path content).filter (fun e => e.1 == path)).map
      (fun e => e.2) = [content] := by
  simp [fsWrite, List.filter_cons, filter_ne_then_eq]

/-! ## Claim theorems -/

/-- C1: the claim says the truncation step never panics and never cuts
inside a multi-byte character.  The code is a slip: `String::truncate`
itself panics off a character boundary, and the boundary-popping loop after
it can never run.  On a composed output of 51199 ASCII bytes followed by a
two-byte character, the 51200-byte cut falls inside the multi-byte
character and the truncation step panics (modelled as `none`). -/
theorem bash_truncation_panics_on_multibyte_boundary :
    MAX_OUTPUT_BYTES < (strBytes badOutput).length
    ∧ isCharBoundary (strBytes badOutput) MAX_OUTPUT_BYTES = false
    ∧ bashPostprocess badOutput = none := by
  refine ⟨?_, ?_, bashPostprocess_badOutput⟩
  · rw [strBytes_badOutput_length]
    norm_num [MAX_OUTPUT_BYTES]
  · rw [show (MAX_OUTPUT_BYTES : Nat) = 51200 from rfl]
    exact badOutput_not_boundary

/-- C2 counterexample: with stdout `hi\n` and stderr `err\n` on a zero
exit status, the composed output is not the claimed `hi\nstderr:\nerr\n`
(the separator newline is added after stdout's own trailing newline). -/
theorem echo_scenario_counterexample :
    composeOutput (some 0) "hi\n" "err\n" ≠ "hi\nstderr:\nerr\n" := by decide

/-- C2 (amended): for the `echo hi && echo err 1>&2` scenario (zero exit,
stdout `hi\n`, stderr `err\n`) the composed result equals exactly
`hi\n\nstderr:\nerr\n`, and it passes the size cap untouched — no
truncation marker. -/
theorem echo_scenario_composed :
    composeOutput (some 0) "hi\n" "err\n" = "hi\n\nstderr:\nerr\n"
    ∧ bashResult (some 0) "hi\n" "err\n" = some (strBytes "hi\n\nstderr:\nerr\n") :=
  ⟨by decide, by decide⟩

/-- C3 counterexample: after the stream `text "Hel"` then a transport
error, the history gains the assistant turn `Hel` as well, not only the
user message as the claim states. -/
theorem midstream_error_counterexample :
    turnHistoryAppend [] "hi" [StreamEvent.text "Hel", StreamEvent.error "boom"]
      ≠ [Msg.user "hi"] := by decide

/-- C3 (amended): when a transport error arrives after text fragments with
non-empty accumulated text, the History Store gains the user message AND an
assistant turn holding the partially accumulated text — the partial text is
preserved, not discarded. -/
theorem midstream_error_appends_partial_assistant
    (h : List Msg) (input : String) (ts : List String) (m : String)
    (post : List StreamEvent) (hne : concatTexts ts ≠ "") :
    turnHistoryAppend h input (ts.map StreamEvent.text ++ StreamEvent.error m :: post)
      = h ++ [Msg.user input, Msg.assistant (concatTexts ts)] := by
  unfold turnHistoryAppend processTurn
  rw [consumeEvents_texts]
  simp [consumeEvents, string_empty_append, String.isEmpty_iff, hne]

/-- Witness for the amended C3 theorem at a concrete stream. -/
theorem midstream_error_appends_partial_assistant_witness :
    concatTexts ["Hel"] ≠ ""
    ∧ turnHistoryAppend [] "hi"
        ([("Hel" : String)].map StreamEvent.text ++ StreamEvent.error "boom" :: [])
      = [Msg.user "hi", Msg.assistant (concatTexts ["Hel"])] :=
  ⟨by decide, midstream_error_appends_partial_assistant [] "hi" ["Hel"] "boom" [] (by decide)⟩

/-- C4: on a successfully spawned and waited process (no spawn error, no
wait error, exit status 0) whose composed output hits the truncation
panic, the runner returns neither a success nor a tool-execution failure —
the call aborts, contradicting the claim that a composed result is always
returned in that situation.  (The error-taxonomy half of the claim — a
tool failure exactly on spawn/wait faults — is visible in `bashCall`'s two
`Except.error` branches.) -/
theorem runner_returns_no_result_on_panicking_output :
    bashCall { spawnErr := none, timedOut := false, waitErr := none,
               status := some 0, stdoutContent := badOutput, stderrContent := "" }
      = ([], none) := by
  simp [bashCall, bashResult, composeOutput, statusSuccess, bashPostprocess_badOutput,
    show ("" : String).isEmpty = true from rfl]

/-- C5: on a non-zero or undeterminable exit status the composed string is
exactly an `Exit code: n` line (n = -1 when the code is unknown), then a
`stdout:` block iff stdout is non-empty, then a `stderr:` block iff stderr
is non-empty. -/
theorem compose_failure_matches_spec (status : Option Int) (out err : String)
    (h : status ≠ some 0) :
    composeOutput status out err = specFailureOutput (status.getD (-1)) out err := by
  have hs : statusSuccess status = false := by
    simp [statusSuccess, h]
  unfold composeOutput specFailureOutput
  rw [hs]
  by_cases ho : out.isEmpty <;> by_cases he : err.isEmpty <;>
    simp_all [String.isEmpty_iff] <;>
    (apply String.ext; simp [String.data_append, List.append_assoc])

/-- Witness for C5 at exit code 1 with non-empty stdout and stderr. -/
theorem compose_failure_matches_spec_witness :
    ((some 1 : Option Int) ≠ some 0)
    ∧ composeOutput (some 1) "out\n" "err\n" = specFailureOutput 1 "out\n" "err\n" :=
  ⟨by decide, compose_failure_matches_spec (some 1) "out\n" "err\n" (by decide)⟩

/-- C6: for a path with a non-empty parent component, write-file creates
exactly the missing ancestor directories (idempotently, by membership), the
content fully replaces what was at the path, the confirmation string
reports the byte count and the path, and a second write at the same path
leaves only the final content. -/
theorem write_file_behavior (fs : FS) (path : List String)
    (content content2 : List Nat) (hpar : path.dropLast.isEmpty = false) :
    (∀ d, d ∈ (writeFileCall fs path content).1.dirs ↔
        (d ∈ fs.dirs ∨ d ∈ ancestorDirs path.dropLast))
    ∧ fsLookup (writeFileCall fs path content).1.files path = some content
    ∧ (writeFileCall fs path content).2 =
        "Successfully wrote " ++ toString content.length ++ " bytes to '"
          ++ joinPath path ++ "'"
    ∧ fsLookup (writeFileCall (writeFileCall fs path content).1 path content2).1.files
        path = some content2
    ∧ ((writeFileCall (writeFileCall fs path content).1 path content2).1.files.filter
        (fun e => e.1 == path)).map (fun e => e.2) = [content2] := by
  have hw : ∀ (g : FS) (c : List Nat), writeFileCall g path c =
      ({ dirs := create_dir_all g.dirs path.dropLast,
         files := fsWrite g.files path c },
       "Successfully wrote " ++ toString c.length ++ " bytes to '"
         ++ joinPath path ++ "'") := by
    intro g c
    unfold writeFileCall
    simp [hpar]
  refine ⟨?_, ?_, ?_, ?_, ?_⟩
  · intro d
    rw [hw]
    simp only [create_dir_all, List.mem_append, List.mem_filter]
    constructor
    · rintro (hd | ⟨hd, _⟩)
      · exact Or.inl hd
      · exact Or.inr hd
    · rintro (hd | hd)
      · exact Or.inl hd
      · by_cases hmem : d ∈ fs.dirs
        case _ => exact Or.inl hmem
        case _ => exact Or.inr ⟨hd, by simp [hmem]⟩
  · rw [hw]
    exact fsLookup_fsWrite_self fs.files path content
  · rw [hw]
  · rw [hw, hw]
    exact fsLookup_fsWrite_self _ path content2
  · rw [hw, hw]
    exact fsWrite_filter_key _ path content2

/-- Witness for C6: writing twice at `a/b.txt` in the empty filesystem. -/
theorem write_file_behavior_witness :
    ((["a", "b.txt"] : List String).dropLast.isEmpty = false)
    ∧ ((∀ d, d ∈ (writeFileCall ⟨[], []⟩ ["a", "b.txt"] [1, 2]).1.dirs ↔
        (d ∈ (⟨[], []⟩ : FS).dirs ∨ d ∈ ancestorDirs (["a", "b.txt"] : List String).dropLast))
    ∧ fsLookup (writeFileCall ⟨[], []⟩ ["a", "b.txt"] [1, 2]).1.files ["a", "b.txt"] = some [1, 2]
    ∧ (writeFileCall ⟨[], []⟩ ["a", "b.txt"] [1, 2]).2 =
        "Successfully wrote " ++ toString ([1, 2] : List Nat).length ++ " bytes to '"
          ++ joinPath ["a", "b.txt"] ++ "'"
    ∧ fsLookup (writeFileCall (writeFileCall ⟨[], []⟩ ["a", "b.txt"] [1, 2]).1 ["a", "b.txt"] [3]).1.files
        ["a", "b.txt"] = some [3]
    ∧ ((writeFileCall (writeFileCall ⟨[], []⟩ ["a", "b.txt"] [1, 2]).1 ["a", "b.txt"] [3]).1.files.filter
        (fun e => e.1 == ["a", "b.txt"])).map (fun e => e.2) = [[3]]) :=
  ⟨by decide, write_file_behavior ⟨[], []⟩ ["a", "b.txt"] [1, 2] [3] (by decide)⟩

/-- C7: when the advisory timeout elapses first (process spawned, timeout
before completion), exactly one warning — naming the 60 s threshold and
Ctrl+C — goes to the operator error stream, and the returned result is
identical to the no-timeout path: the timeout neither kills the process
nor alters the composed result. -/
theorem timeout_warning_advisory (env : CmdEnv) (hs : env.spawnErr = none)
    (ht : env.timedOut = true) :
    (bashCall env).1 = [timeoutWarning]
    ∧ (bashCall env).2 = (bashCall { env with timedOut := false }).2 := by
  obtain ⟨sp, t, w, st, so, se⟩ := env
  simp only at hs ht
  subst hs ht
  cases w <;> exact ⟨rfl, rfl⟩

/-- Witness for C7 at a concrete timed-out invocation. -/
theorem timeout_warning_advisory_witness :
    ((⟨none, true, none, some 0, "ok", ""⟩ : CmdEnv).spawnErr = none)
    ∧ ((⟨none, true, none, some 0, "ok", ""⟩ : CmdEnv).timedOut = true)
    ∧ (bashCall ⟨none, true, none, some 0, "ok", ""⟩).1 = [timeoutWarning]
    ∧ (bashCall ⟨none, true, none, some 0, "ok", ""⟩).2 =
        (bashCall { (⟨none, true, none, some 0, "ok", ""⟩ : CmdEnv) with
          timedOut := false }).2 :=
  ⟨rfl, rfl,
    (timeout_warning_advisory ⟨none, true, none, some 0, "ok", ""⟩ rfl rfl).1,
    (timeout_warning_advisory ⟨none, true, none, some 0, "ok", ""⟩ rfl rfl).2⟩

/-- C8: a line whose trimmed form matches `exit`/`quit` case-insensitively
terminates with exit code 0 and an unchanged history, end-of-input does
the same, and a blank line re-enters input reading without invoking the
engine or touching the history. -/
theorem quit_exit_blank_input_behavior (h : List Msg)
    (engine : String → List StreamEvent) (s : String) :
    ((eqIgnoreAsciiCase (rustTrim s) "exit" = true
        ∨ eqIgnoreAsciiCase (rustTrim s) "quit" = true) →
      loopStep h (InputEvent.line s) engine = StepOutcome.terminated 0 h)
    ∧ loopStep h InputEvent.eof engine = StepOutcome.terminated 0 h
    ∧ (rustTrim s = "" →
      loopStep h (InputEvent.line s) engine = StepOutcome.next h false) := by
  refine ⟨?_, rfl, ?_⟩
  · rintro (hc | hc) <;> simp [loopStep, hc]
  · intro hb
    simp [loopStep, hb, show eqIgnoreAsciiCase "" "exit" = false from by decide,
      show eqIgnoreAsciiCase "" "quit" = false from by decide,
      show ("" : String).isEmpty = true from rfl]

/-- Witness for C8 at a mixed-case quit line and a blank line. -/
theorem quit_exit_blank_input_behavior_witness :
    (eqIgnoreAsciiCase (rustTrim " QuIt ") "quit" = true)
    ∧ loopStep [] (InputEvent.line " QuIt ") (fun _ => []) = StepOutcome.terminated 0 []
    ∧ loopStep [] InputEvent.eof (fun _ => []) = StepOutcome.terminated 0 []
    ∧ (rustTrim "  " = "")
    ∧ loopStep [] (InputEvent.line "  ") (fun _ => []) = StepOutcome.next [] false :=
  ⟨by decide,
    (quit_exit_blank_input_behavior [] (fun _ => []) " QuIt ").1 (Or.inr (by decide)),
    (quit_exit_blank_input_behavior [] (fun _ => []) " QuIt ").2.1,
    by decide,
    (quit_exit_blank_input_behavior [] (fun _ => []) "  ").2.2 (by decide)⟩

/-- C9: `format_number` produces the decimal representation with a comma
between every group of three digits counted from the least significant
digit, and the usage line shows both counters in that form. -/
theorem format_number_matches_spec :
    (∀ n : Nat, format_number n = specFormatNumber n)
    ∧ ∀ i o : Nat, usageLine i o =
        "[Tokens: " ++ specFormatNumber i ++ " in / " ++ specFormatNumber o ++ " out]" := by
  have hmain : ∀ n : Nat, format_number n = specFormatNumber n := by
    intro n
    unfold format_number specFormatNumber digitGroups
    rw [formatRevAux_zero, joinComma_reverse]
  exact ⟨hmain, fun i o => by unfold usageLine; rw [hmain i, hmain o]⟩

/-- C10: a turn whose stream delivers no final-usage event (ending
normally or by a transport error) leaves the freshly-zeroed usage counters
at zero, and the printed usage line reports 0 in / 0 out; the counters are
initialised per turn and cannot carry anything over. -/
theorem usage_counters_zero_without_final (events : List StreamEvent)
    (h : ∀ a b, StreamEvent.final a b ∉ events) :
    (processTurn events).input_tokens = 0
    ∧ (processTurn events).output_tokens = 0
    ∧ usageLine (processTurn events).input_tokens (processTurn events).output_tokens
        = "[Tokens: 0 in / 0 out]" := by
  unfold processTurn
  have hp := consumeEvents_no_final events
    { responseText := "", input_tokens := 0, output_tokens := 0 } h
  rw [hp.1, hp.2]
  exact ⟨rfl, rfl, by decide⟩

/-- Witness for C10 at a stream erroring after one text fragment. -/
theorem usage_counters_zero_without_final_witness :
    (processTurn [StreamEvent.text "x", StreamEvent.error "e"]).input_tokens = 0
    ∧ (processTurn [StreamEvent.text "x", StreamEvent.error "e"]).output_tokens = 0
    ∧ usageLine (processTurn [StreamEvent.text "x", StreamEvent.error "e"]).input_tokens
        (processTurn [StreamEvent.text "x", StreamEvent.error "e"]).output_tokens
        = "[Tokens: 0 in / 0 out]" :=
  usage_counters_zero_without_final [StreamEvent.text "x", StreamEvent.error "e"]
    (by intro a b hm; simp at hm)

end RigCC
